import Mathlib

/-!
Verification of the chemoinformatics walkthrough notebook
`molecular-property-prediction/chemoinformatics/0_introduction-to-rdkit.ipynb`.

The notebook itself is straight-line glue around external libraries (pandas,
json, gzip, RDKit).  The library operations the notebook relies on are
modelled here from the specification: a line-delimited JSON loader, a SMILES
subset parser producing a molecular graph, hydrogen explicitation, ring and
rotatable-bond queries, Morgan bit-vector fingerprints, and a column-oriented
table with projection, row slicing and column assignment.  The notebook cells
are then embedded as Lean definitions over these models.
-/

/-! ## Whitespace and Python-style strip -/

/-- Whitespace characters recognised by the lexer and by `strip`. -/
def isWsChar (c : Char) : Bool := c == ' ' || c == '\t' || c == '\n' || c == '\r'

/-- Modelled from the spec: Python `str.lstrip` on the underlying characters. -/
def lstripChars (l : List Char) : List Char := l.dropWhile isWsChar

/-- Modelled from the spec: Python `str.rstrip` on the underlying characters. -/
def rstripChars (l : List Char) : List Char := (l.reverse.dropWhile isWsChar).reverse

/-- Modelled from the spec: Python `str.strip`, removing whitespace at both ends. -/
def stripChars (l : List Char) : List Char := rstripChars (lstripChars l)

/-! ## JSON values

One `Record` of the input file is one JSON object.  Numbers are kept as their
raw lexeme: the notebook never computes with them, and both loading paths in
the notebook deserialize with the same grammar, so the lexeme is a faithful
carrier of the value. -/

/-- A JSON value, as produced by deserializing one line of the input file. -/
inductive Json where
  | null
  | bool (b : Bool)
  | num (lexeme : List Char)
  | str (s : List Char)
  | arr (elems : List Json)
  | obj (fields : List (List Char × Json))

/-! ## A fueled JSON parser

Modelled from the spec: the input file is newline-delimited JSON, "each line
is one independent JSON object"; both `json.loads` and the tabular loader
deserialize single lines with this grammar.  The parser is one structurally
recursive function on a fuel counter; a mode tag replaces mutual recursion so
every call reduces definitionally. -/

/-- Digit test for the number lexer. -/
def isDigitChar (c : Char) : Bool := '0' ≤ c && c ≤ '9'

/-- Longest digit prefix and the remaining input. -/
def takeDigits : List Char → List Char × List Char
  | c :: cs =>
    if isDigitChar c then
      let p := takeDigits cs
      (c :: p.1, p.2)
    else ([], c :: cs)
  | [] => ([], [])

/-- Lex one JSON number lexeme (sign, integer part, optional fraction and
exponent); `none` when no digit starts the integer part. -/
def lexNumber (l : List Char) : Option (List Char × List Char) :=
  let signed : List Char × List Char :=
    match l with
    | '-' :: cs => (['-'], cs)
    | cs => ([], cs)
  let ip := takeDigits signed.2
  if ip.1.isEmpty then none
  else
    let frac : List Char × List Char :=
      match ip.2 with
      | '.' :: cs =>
        let fd := takeDigits cs
        if fd.1.isEmpty then ([], '.' :: cs) else ('.' :: fd.1, fd.2)
      | cs => ([], cs)
    let expo : List Char × List Char :=
      match frac.2 with
      | 'e' :: cs =>
        (match cs with
         | '+' :: ds => let ed := takeDigits ds
                        if ed.1.isEmpty then ([], 'e' :: cs) else ('e' :: '+' :: ed.1, ed.2)
         | '-' :: ds => let ed := takeDigits ds
                        if ed.1.isEmpty then ([], 'e' :: cs) else ('e' :: '-' :: ed.1, ed.2)
         | ds => let ed := takeDigits ds
                 if ed.1.isEmpty then ([], 'e' :: cs) else ('e' :: ed.1, ed.2))
      | 'E' :: cs =>
        (match cs with
         | '+' :: ds => let ed := takeDigits ds
                        if ed.1.isEmpty then ([], 'E' :: cs) else ('E' :: '+' :: ed.1, ed.2)
         | '-' :: ds => let ed := takeDigits ds
                        if ed.1.isEmpty then ([], 'E' :: cs) else ('E' :: '-' :: ed.1, ed.2)
         | ds => let ed := takeDigits ds
                 if ed.1.isEmpty then ([], 'E' :: cs) else ('E' :: ed.1, ed.2))
      | cs => ([], cs)
    some (signed.1 ++ ip.1 ++ frac.1 ++ expo.1, expo.2)

/-- Lex a JSON string body after the opening quote; handles the common escape
sequences and stops at the closing quote. -/
def lexStringBody : List Char → Option (List Char × List Char)
  | '"' :: rest => some ([], rest)
  | '\\' :: e :: rest =>
    match
      (match e with
       | '"' => some '"'
       | '\\' => some '\\'
       | '/' => some '/'
       | 'n' => some '\n'
       | 't' => some '\t'
       | 'r' => some '\r'
       | _ => none : Option Char) with
    | some d =>
      match lexStringBody rest with
      | some p => some (d :: p.1, p.2)
      | none => none
    | none => none
  | c :: rest =>
    match lexStringBody rest with
    | some p => some (c :: p.1, p.2)
    | none => none
  | [] => none

/-- Parsing mode: a single value, the elements after `[`, or the members
after `\x7b`. -/
inductive PMode where
  | val
  | elems
  | members

/-- Parse result for each mode. -/
inductive PRes where
  | v (j : Json)
  | es (l : List Json)
  | ms (l : List (List Char × Json))

/-- The fueled JSON parser core.  `PMode.val` consumes one value;
`PMode.elems` consumes array elements up to and including `]`;
`PMode.members` consumes object members up to and including the closing
brace.  Leading whitespace is skipped in every mode. -/
def parseCore : Nat → PMode → List Char → Option (PRes × List Char)
  | 0, _, _ => none
  | Nat.succ f, PMode.val, l =>
    match l.dropWhile isWsChar with
    | 'n' :: 'u' :: 'l' :: 'l' :: rest => some (PRes.v Json.null, rest)
    | 't' :: 'r' :: 'u' :: 'e' :: rest => some (PRes.v (Json.bool true), rest)
    | 'f' :: 'a' :: 'l' :: 's' :: 'e' :: rest => some (PRes.v (Json.bool false), rest)
    | '"' :: rest =>
      match lexStringBody rest with
      | some p => some (PRes.v (Json.str p.1), p.2)
      | none => none
    | '[' :: rest =>
      (match (rest.dropWhile isWsChar : List Char) with
       | ']' :: rest2 => some (PRes.v (Json.arr []), rest2)
       | _ =>
         match parseCore f PMode.elems rest with
         | some (PRes.es es, rest2) => some (PRes.v (Json.arr es), rest2)
         | _ => none)
    | '\x7b' :: rest =>
      (match (rest.dropWhile isWsChar : List Char) with
       | '\x7d' :: rest2 => some (PRes.v (Json.obj []), rest2)
       | _ =>
         match parseCore f PMode.members rest with
         | some (PRes.ms ms, rest2) => some (PRes.v (Json.obj ms), rest2)
         | _ => none)
    | rest =>
      match lexNumber rest with
      | some p => some (PRes.v (Json.num p.1), p.2)
      | none => none
  | Nat.succ f, PMode.elems, l =>
    match parseCore f PMode.val l with
    | some (PRes.v j, rest) =>
      (match (rest.dropWhile isWsChar : List Char) with
       | ',' :: rest2 =>
         (match parseCore f PMode.elems rest2 with
          | some (PRes.es es, rest3) => some (PRes.es (j :: es), rest3)
          | _ => none)
       | ']' :: rest2 => some (PRes.es [j], rest2)
       | _ => none)
    | _ => none
  | Nat.succ f, PMode.members, l =>
    match (l.dropWhile isWsChar : List Char) with
    | '"' :: rest =>
      (match lexStringBody rest with
       | some kp =>
         (match (kp.2.dropWhile isWsChar : List Char) with
          | ':' :: rest2 =>
            (match parseCore f PMode.val rest2 with
             | some (PRes.v j, rest3) =>
               (match (rest3.dropWhile isWsChar : List Char) with
                | ',' :: rest4 =>
                  (match parseCore f PMode.members rest4 with
                   | some (PRes.ms ms, rest5) => some (PRes.ms ((kp.1, j) :: ms), rest5)
                   | _ => none)
                | '\x7d' :: rest4 => some (PRes.ms [(kp.1, j)], rest4)
                | _ => none)
             | _ => none)
          | _ => none)
       | none => none)
    | _ => none

/-- Modelled from the spec: `json.loads` on the characters of one line.  The
input is stripped, one JSON value is parsed, and trailing data is rejected.
Stripping first makes `json.loads` insensitive to surrounding whitespace,
exactly as the Python function is. -/
def json_loadsChars (l : List Char) : Option Json :=
  let t := stripChars l
  match parseCore (t.length + 1) PMode.val t with
  | some (PRes.v j, rest) => if rest.isEmpty then some j else none
  | _ => none

/-- Modelled from the spec: `json.loads` on a string. -/
def json_loads (s : String) : Option Json := json_loadsChars s.data

/-! ## Line-delimited loading

Modelled from the spec: the input file is "gzip-compressed, newline-delimited
JSON.  Each line is one independent JSON object".  Decompression of a
well-formed gzip file is modelled as the identity on the decompressed text:
the definitions below take the decompressed content.  `pd.read_json(path,
lines=True)` splits the content on newlines, deserializes each non-blank line
independently, and yields one row per line in file order; `.head(1000)` keeps
the first 1000 rows. -/

/-- Split a character stream on newline characters.  A trailing newline
produces a final empty line, as Python string splitting does. -/
def splitOnNl : List Char → List (List Char)
  | [] => [[]]
  | c :: rest =>
    if c = '\n' then [] :: splitOnNl rest
    else
      match splitOnNl rest with
      | l :: ls => (c :: l) :: ls
      | [] => [[c]]

/-- A line consisting only of whitespace (in particular the empty line after
a trailing newline), skipped by the line-delimited reader. -/
def wsOnly (l : List Char) : Bool := (l.dropWhile isWsChar).isEmpty

/-- The data-bearing lines of the file content, in file order. -/
def contentLines (content : String) : List (List Char) :=
  (splitOnNl content.data).filter (fun l => !(wsOnly l))

/-- Effectful map over a list in the `Option` monad, written out so its
behaviour is transparent: the whole map fails as soon as one element fails. -/
def mapOption (f : α → Option β) : List α → Option (List β)
  | [] => some []
  | a :: l =>
    match f a, mapOption f l with
    | some b, some bs => some (b :: bs)
    | _, _ => none

/-- Modelled from the spec: `pd.read_json(data_path, lines=True).head(1000)`.
Every data line is deserialized independently as one JSON object and the
first 1000 rows are kept. -/
def loadData (content : String) : Option (List Json) :=
  (mapOption json_loadsChars (contentLines content)).map (fun rs => rs.take 1000)

/-- Modelled from the spec: the manual loading path of the first notebook
cells, `record = fp.readline().strip()` followed by `json.loads(record)`.
`readline` yields the first line up to and including its newline; `strip`
then removes that newline together with any other surrounding whitespace. -/
def manualFirstRecord (content : String) : List Char :=
  stripChars (content.data.takeWhile (fun c => c ≠ '\n'))

/-- Modelled from the spec: `json.loads(record)` on the manually read first
line. -/
def manualFirstJson (content : String) : Option Json :=
  json_loadsChars (manualFirstRecord content)

/-! ## Molecules and the SMILES subset parser

Modelled from the spec: RDKit `Chem.MolFromSmiles` "converts a SMILES string
into an in-memory molecular graph representation (atoms, bonds,
implicit/explicit hydrogens, ring membership)".  The model covers the SMILES
subset the notebook and its dataset exercise: the organic-subset atoms
C, N, O, F, S (and their aromatic forms c, n, o, s), branches, explicit
single/double/triple bonds, and single-digit ring closures.  Any other
character, an unclosed branch or ring, or a dangling bond symbol makes the
parse fail, which models a malformed SMILES string. -/

/-- An atom of the molecular graph: element symbol and aromaticity flag. -/
structure Atom where
  symbol : List Char
  aromatic : Bool
deriving DecidableEq

/-- Bond orders of the SMILES subset. -/
inductive BondOrder where
  | single
  | double
  | triple
  | aromaticB
deriving DecidableEq

/-- A bond between two atom indices; `closure` marks ring-closure bonds. -/
structure Bond where
  lo : Nat
  hi : Nat
  order : BondOrder
  closure : Bool
deriving DecidableEq

/-- The molecular graph built by the SMILES parser. -/
structure Molecule where
  atoms : List Atom
  bonds : List Bond
deriving DecidableEq

/-- The atom token denoted by one SMILES character, when it is in the
modelled subset. -/
def atomOfChar (c : Char) : Option Atom :=
  match c with
  | 'C' => some ⟨['C'], false⟩
  | 'N' => some ⟨['N'], false⟩
  | 'O' => some ⟨['O'], false⟩
  | 'F' => some ⟨['F'], false⟩
  | 'S' => some ⟨['S'], false⟩
  | 'c' => some ⟨['C'], true⟩
  | 'n' => some ⟨['N'], true⟩
  | 'o' => some ⟨['O'], true⟩
  | 's' => some ⟨['S'], true⟩
  | _ => none

/-- Parser state for the SMILES reader: atoms and bonds built so far, the
current attachment atom, the branch stack, the open ring closures
(digit, atom) and a pending explicit bond order. -/
structure SmilesState where
  atoms : List Atom
  bonds : List Bond
  prev : Option Nat
  stack : List (Option Nat)
  rings : List (Nat × Nat)
  pending : Option BondOrder

/-- Whether the atom at index `i` is aromatic. -/
def aromaticAt (atoms : List Atom) (i : Nat) : Bool :=
  match atoms.get? i with
  | some a => a.aromatic
  | none => false

/-- The bond order used when no explicit bond symbol is pending: aromatic
between two aromatic atoms, single otherwise. -/
def defaultOrder (atoms : List Atom) (i j : Nat) : BondOrder :=
  if aromaticAt atoms i && aromaticAt atoms j then BondOrder.aromaticB else BondOrder.single

/-- One step per character of the SMILES subset reader. -/
def parseSmilesAux : List Char → SmilesState → Option SmilesState
  | [], st => some st
  | c :: rest, st =>
    if c = '(' then
      parseSmilesAux rest { st with stack := st.prev :: st.stack }
    else if c = ')' then
      match st.stack with
      | [] => none
      | p :: s => parseSmilesAux rest { st with prev := p, stack := s }
    else if c = '-' then
      parseSmilesAux rest { st with pending := some BondOrder.single }
    else if c = '=' then
      parseSmilesAux rest { st with pending := some BondOrder.double }
    else if c = '#' then
      parseSmilesAux rest { st with pending := some BondOrder.triple }
    else if isDigitChar c then
      match st.prev with
      | none => none
      | some i =>
        let d := c.toNat
        match st.rings.lookup d with
        | some j =>
          let ord := match st.pending with
            | some o => o
            | none => defaultOrder st.atoms j i
          parseSmilesAux rest
            { st with
              bonds := st.bonds ++ [⟨j, i, ord, true⟩]
              rings := st.rings.filter (fun p => p.1 ≠ d)
              pending := none }
        | none =>
          parseSmilesAux rest { st with rings := (d, i) :: st.rings, pending := none }
    else
      match atomOfChar c with
      | none => none
      | some a =>
        let idx := st.atoms.length
        let newAtoms := st.atoms ++ [a]
        let newBonds :=
          match st.prev with
          | some p =>
            let ord := match st.pending with
              | some o => o
              | none => defaultOrder newAtoms p idx
            st.bonds ++ [⟨p, idx, ord, false⟩]
          | none => st.bonds
        parseSmilesAux rest
          { st with atoms := newAtoms, bonds := newBonds, prev := some idx, pending := none }

/-- Modelled from the spec: `Chem.MolFromSmiles` on the modelled SMILES
subset.  A string outside the subset, or with an unclosed branch, an open
ring closure or a dangling bond symbol, is malformed and fails to parse. -/
def parseSmiles (s : String) : Option Molecule :=
  match parseSmilesAux s.data ⟨[], [], none, [], [], none⟩ with
  | none => none
  | some st =>
    if st.stack.isEmpty && st.rings.isEmpty && st.pending.isNone then
      some ⟨st.atoms, st.bonds⟩
    else none

/-! ## Molecular queries, hydrogen explicitation, descriptors, fingerprints -/

/-- Modelled from the spec: `mol.GetRingInfo().NumRings()`.  Each matched
ring closure of the SMILES string closes exactly one ring of the smallest
set of smallest rings, so rings are counted by the closure bonds. -/
def numRings (m : Molecule) : Nat := (m.bonds.filter Bond.closure).length

/-- The heavy-atom degree of atom `i`: how many bonds are incident to it. -/
def degreeAt (m : Molecule) (i : Nat) : Nat :=
  (m.bonds.filter (fun b => b.lo = i || b.hi = i)).length

/-- Twice a bond order, so aromatic bonds (order 3/2) stay integral. -/
def doubledOrder (o : BondOrder) : Nat :=
  match o with
  | BondOrder.single => 2
  | BondOrder.double => 4
  | BondOrder.triple => 6
  | BondOrder.aromaticB => 3

/-- Standard valence of the modelled elements. -/
def defaultValence (symbol : List Char) : Nat :=
  match symbol with
  | ['C'] => 4
  | ['N'] => 3
  | ['O'] => 2
  | ['F'] => 1
  | ['S'] => 2
  | ['H'] => 1
  | _ => 0

/-- Implicit hydrogen count of atom `i`: the default valence minus the
(rounded-up) sum of the incident bond orders, as RDKit computes it for
organic-subset atoms. -/
def implicitHCount (m : Molecule) (i : Nat) : Nat :=
  match m.atoms.get? i with
  | none => 0
  | some a =>
    let used := ((m.bonds.filter (fun b => b.lo = i || b.hi = i)).map
      (fun b => doubledOrder b.order)).sum
    defaultValence a.symbol - (used + 1) / 2

/-- The implicit hydrogen counts of all atoms, in atom order. -/
def hCounts (m : Molecule) : List Nat :=
  (List.range m.atoms.length).map (fun i => implicitHCount m i)

/-- Bonds from each original atom to its newly appended hydrogens, the
hydrogens of atom 0 first, then atom 1, and so on. -/
def hBonds (base : Nat) : List Nat → Nat → List Bond
  | [], _ => []
  | c :: cs, i =>
    ((List.range c).map (fun k => ⟨i, base + k, BondOrder.single, false⟩))
      ++ hBonds (base + c) cs (i + 1)

/-- Modelled from the spec: `Chem.AddHs`, converting to the
explicit-hydrogen representation.  The original atoms keep their indices and
symbols; one explicit hydrogen atom per implicit hydrogen is appended after
them, bonded to its carrier. -/
def addHs (m : Molecule) : Molecule :=
  let cs := hCounts m
  { atoms := m.atoms ++ List.replicate cs.sum ⟨['H'], false⟩
    bonds := m.bonds ++ hBonds m.atoms.length cs 0 }

/-- Modelled from the spec: `AllChem.CalcNumRotatableBonds`.  A rotatable
bond is a single, non-ring bond whose two atoms each carry at least one
further heavy-atom bond. -/
def calcNumRotatableBonds (m : Molecule) : Nat :=
  (m.bonds.filter (fun b =>
    b.order = BondOrder.single && !b.closure
      && decide (2 ≤ degreeAt m b.lo) && decide (2 ≤ degreeAt m b.hi))).length

/-- The base invariant of one atom for the fingerprint hash: element symbol
and aromaticity, mixed into one number. -/
def atomCode (a : Atom) : Nat :=
  (a.symbol.foldl (fun h c => h * 131 + c.toNat) 7) * 2 + (if a.aromatic then 1 else 0)

/-- The neighbours of atom `i` with the doubled order of the connecting
bond. -/
def neighborsAt (m : Molecule) (i : Nat) : List (Nat × Nat) :=
  m.bonds.foldr
    (fun b acc =>
      if b.lo = i then (doubledOrder b.order, b.hi) :: acc
      else if b.hi = i then (doubledOrder b.order, b.lo) :: acc
      else acc) []

/-- The iterated Morgan environment code of atom `i` at a given radius:
radius 0 is the atom invariant; each round folds the neighbour codes of the
previous round in with the connecting bond orders.  The combination is
commutative in the neighbours, so the code is independent of bond input
order. -/
def morganCode (m : Molecule) : Nat → Nat → Nat
  | 0, i =>
    match m.atoms.get? i with
    | some a => atomCode a
    | none => 0
  | Nat.succ r, i =>
    let nb := (neighborsAt m i).map (fun p => p.1 * 65599 + morganCode m r p.2 * 31)
    morganCode m r i * 1000003 + nb.sum + 1

/-- All environment hashes contributing to the fingerprint: every atom at
every radius up to the requested one. -/
def morganHashes (m : Molecule) (radius : Nat) : List Nat :=
  (List.range m.atoms.length).foldr
    (fun i acc => ((List.range (radius + 1)).map (fun r => morganCode m r i)) ++ acc) []

/-- Modelled from the spec: `AllChem.GetMorganFingerprintAsBitVect(mol,
radius, nBits)`, "a fixed-length bit vector derived from a Molecule via a
hashing procedure parameterized by a radius and a length".  Each environment
hash sets one bit, folded over a zero vector of the requested length. -/
def getMorganFingerprintAsBitVect (m : Molecule) (radius nBits : Nat) : List Nat :=
  (morganHashes m radius).foldl (fun bv h => bv.set (h % nBits) 1)
    (List.replicate nBits 0)

/-- The burden-style weight of atom `i`: its own invariant plus the weights
of its incident bonds, the connectivity information the BCUT eigenvalue
descriptors are built from. -/
def burdenAt (m : Molecule) (i : Nat) : Nat :=
  match m.atoms.get? i with
  | none => 0
  | some a => atomCode a + ((neighborsAt m i).map (fun p => p.1)).sum

/-- Modelled from the spec: `AllChem.BCUT2D`, a descriptor in the spec's
sense of "a scalar (float/int) or fixed-length numeric vector derived from a
Molecule; recomputed on demand, never mutated".  The library's
floating-point eigenvalue computation is out of scope; the model derives its
fixed-length vector (the extreme burden weights) from the same atom and bond
information, over the naturals. -/
def bcut2d (m : Molecule) : List Nat :=
  let bs := (List.range m.atoms.length).map (fun i => burdenAt m i)
  [bs.foldr Nat.max 0, bs.foldr Nat.min (bs.foldr Nat.max 0)]

/-! ## Tables

Modelled from the spec: a Table is "a collection of Records with a shared,
ordered set of named columns; supports column projection and row slicing".
A cell holds either a JSON value from the input file or a parsed Molecule
(the `mol` column the notebook assigns). -/

/-- One cell of a table. -/
inductive Cell where
  | js (j : Json)
  | mol (m : Molecule)

/-- A table: an ordered list of column names and the rows, each row aligned
with the columns. -/
structure Table where
  cols : List String
  rows : List (List Cell)

/-- The value of column `name` in one row, by positional lookup against the
column list. -/
def getCell (cols : List String) (row : List Cell) (name : String) : Cell :=
  match (cols.zip row).lookup name with
  | some c => c
  | none => Cell.js Json.null

/-- Modelled from the spec: reading one column as a Series, `data[name]`.
A missing column is a key error terminating the cell. -/
def getColumn (t : Table) (name : String) : Except String (List Cell) :=
  if t.cols.contains name then
    Except.ok (t.rows.map (fun r => getCell t.cols r name))
  else Except.error "KeyError"

/-- Modelled from the spec: column assignment `data[name] = values`.  A new
name is appended after the existing columns; an existing name has its cells
overwritten in place. -/
def setColumn (t : Table) (name : String) (vals : List Cell) : Table :=
  if t.cols.contains name then
    { cols := t.cols
      rows := t.rows.zipWith (fun r v => r.set (t.cols.indexOf name) v) vals }
  else
    { cols := t.cols ++ [name]
      rows := t.rows.zipWith (fun r v => r ++ [v]) vals }

/-- Modelled from the spec: column projection `data[[c1, ..., ck]]`,
returning exactly the named columns in the requested order.  A name not
present in the table is a key error. -/
def projectCols (t : Table) (cs : List String) : Except String Table :=
  if cs.all (fun c => t.cols.contains c) then
    Except.ok { cols := cs, rows := t.rows.map (fun r => cs.map (getCell t.cols r)) }
  else Except.error "KeyError"

/-- Modelled from the spec: row slicing `.head(n)`, the first
`min n (row count)` rows in their original order. -/
def headTable (t : Table) (n : Nat) : Table :=
  { cols := t.cols, rows := t.rows.take n }

/-- Effectful map in the `Except` monad, failing on the first failing
element, written out so its behaviour is transparent. -/
def mapExcept (f : α → Except ε β) : List α → Except ε (List β)
  | [] => Except.ok []
  | a :: l =>
    match f a with
    | Except.error e => Except.error e
    | Except.ok b =>
      match mapExcept f l with
      | Except.error e => Except.error e
      | Except.ok bs => Except.ok (b :: bs)

/-! ## The notebook cells

The spec states that any library-level failure "would surface as an
unhandled library-level error terminating the current cell" and that the
notebook contains no recovery path, so each cell is embedded in the
`Except` monad: an error value is the cell terminating with an unhandled
error, and nothing downstream catches it. -/

/-- Modelled from the spec: `Chem.MolFromSmiles` as used inside a cell.  A
malformed SMILES string surfaces as an unhandled error terminating the
cell. -/
def molFromSmilesE (s : String) : Except String Molecule :=
  match parseSmiles s with
  | some m => Except.ok m
  | none => Except.error "SMILES Parse Error"

/-- `Chem.MolFromSmiles` applied to one cell value by `Series.map`: the cell
must hold a string, and the string must parse. -/
def molFromSmilesCell (c : Cell) : Except String Cell :=
  match c with
  | Cell.js (Json.str s) =>
    match molFromSmilesE (String.mk s) with
    | Except.ok m => Except.ok (Cell.mol m)
    | Except.error e => Except.error e
  | _ => Except.error "TypeError"

/-- Notebook cell 15: `data['mol'] = data['smiles_0'].map(Chem.MolFromSmiles)`.
The smiles column is read, every entry is parsed, and the parsed column is
assigned under the new name `mol`; the first failure terminates the cell. -/
def runCell15 (t : Table) : Except String Table :=
  match getColumn t "smiles_0" with
  | Except.error e => Except.error e
  | Except.ok col =>
    match mapExcept molFromSmilesCell col with
    | Except.error e => Except.error e
    | Except.ok mols => Except.ok (setColumn t "mol" mols)

/-- The descriptor-and-fingerprint flow of notebook cells 13, 20, 23, 24,
28, 30 and 32: both SMILES strings are parsed first, and every descriptor,
ring-information and fingerprint call — `GetRingInfo().NumRings()`,
`CalcNumRotatableBonds`, `BCUT2D` and `GetMorganFingerprintAsBitVect` —
receives the Molecule produced by the corresponding successful parse
(`mol` having been rebound to its explicit-hydrogen form by cell 20 before
the `BCUT2D` and fingerprint cells). -/
def notebookDescriptors : Except String (Nat × Nat × List Nat × List Nat) :=
  match molFromSmilesE "CCCO" with
  | Except.error e => Except.error e
  | Except.ok mol =>
    match molFromSmilesE "Cc1ccccc1" with
    | Except.error e => Except.error e
    | Except.ok toluene =>
      Except.ok (numRings toluene, calcNumRotatableBonds toluene,
        bcut2d (addHs mol), getMorganFingerprintAsBitVect (addHs mol) 4 16)

/-! ## State-passing descriptor computations

The spec describes descriptor values as "recomputed on demand, never
mutated".  To make the frame condition visible, each computation is also
given in a state-passing form returning the value together with the
molecule it leaves behind. -/

/-- `AllChem.CalcNumRotatableBonds` in state-passing form: the result and
the molecule after the call. -/
def calcNumRotatableBondsRun (m : Molecule) : Nat × Molecule :=
  (calcNumRotatableBonds m, m)

/-- `AllChem.GetMorganFingerprintAsBitVect` in state-passing form: the
result and the molecule after the call. -/
def getMorganFingerprintRun (m : Molecule) (radius nBits : Nat) : List Nat × Molecule :=
  (getMorganFingerprintAsBitVect m radius nBits, m)

/-! ## Helper lemmas -/

/-- Dropping a prefix satisfying `p` is idempotent. -/
theorem dropWhile_self_idem (p : Char → Bool) (l : List Char) :
    (l.dropWhile p).dropWhile p = l.dropWhile p :=
  List.dropWhile_eq_self_iff.mpr (fun hl => List.dropWhile_get_zero_not p l hl)

/-- `rstrip` is idempotent. -/
theorem rstrip_idem (l : List Char) : rstripChars (rstripChars l) = rstripChars l := by
  unfold rstripChars
  rw [List.reverse_reverse, dropWhile_self_idem]

/-- After `lstrip`, a further `lstrip` of the `rstrip` does nothing: the
head, when present, is already non-whitespace and `rstrip` keeps it. -/
theorem lstrip_rstrip_lstrip (l : List Char) :
    lstripChars (rstripChars (lstripChars l)) = rstripChars (lstripChars l) := by
  rcases hx : lstripChars l with _ | ⟨a, t⟩
  · rfl
  · have ha : isWsChar a = false := by
      have h0 : 0 < (l.dropWhile isWsChar).length := by
        rw [show l.dropWhile isWsChar = a :: t from hx]
        exact Nat.succ_pos _
      have := List.dropWhile_get_zero_not isWsChar l h0
      have hget : (l.dropWhile isWsChar).get ⟨0, h0⟩ = a := by
        simp [show l.dropWhile isWsChar = a :: t from hx]
      rw [hget] at this
      simp only [Bool.not_eq_true] at this
      exact this
    show lstripChars (rstripChars (a :: t)) = rstripChars (a :: t)
    unfold rstripChars lstripChars
    rw [List.reverse_cons, List.dropWhile_append]
    by_cases he : (t.reverse.dropWhile isWsChar).isEmpty
    · simp only [he, if_pos]
      simp [List.dropWhile_cons, ha]
    · simp only [he, if_neg, Bool.false_eq_true, not_false_iff]
      rw [List.reverse_append]
      simp [List.dropWhile_cons, ha]

/-- `strip` is idempotent. -/
theorem strip_idem (l : List Char) : stripChars (stripChars l) = stripChars l := by
  unfold stripChars
  rw [lstrip_rstrip_lstrip, rstrip_idem]

/-- `json.loads` is insensitive to Python stripping of its input. -/
theorem json_loadsChars_strip (l : List Char) :
    json_loadsChars (stripChars l) = json_loadsChars l := by
  simp only [json_loadsChars, strip_idem]

/-- The first line of the newline split is the longest newline-free prefix. -/
theorem splitOnNl_head (cs : List Char) :
    ∃ ls, splitOnNl cs = (cs.takeWhile (fun c => c ≠ '\n')) :: ls := by
  induction cs with
  | nil => exact ⟨[], rfl⟩
  | cons c rest ih =>
    by_cases hc : c = '\n'
    · subst hc
      exact ⟨splitOnNl rest, by simp [splitOnNl, List.takeWhile_cons]⟩
    · obtain ⟨ls0, h0⟩ := ih
      exact ⟨ls0, by simp [splitOnNl, hc, h0, List.takeWhile_cons]⟩

/-- A successful `mapOption` preserves the length. -/
theorem mapOption_length (f : α → Option β) :
    ∀ (l : List α) (r : List β), mapOption f l = some r → r.length = l.length := by
  intro l
  induction l with
  | nil =>
    intro r h
    simp only [mapOption, Option.some.injEq] at h
    subst h
    rfl
  | cons a l ih =>
    intro r h
    unfold mapOption at h
    split at h
    · rename_i b bs hfa hrest
      injection h with h2
      subst h2
      simp [ih bs hrest]
    · cases h

/-- Inversion for `mapOption` on a cons cell. -/
theorem mapOption_cons_inv (f : α → Option β) (a : α) (l : List α) (r : List β)
    (h : mapOption f (a :: l) = some r) :
    ∃ b bs, f a = some b ∧ mapOption f l = some bs ∧ r = b :: bs := by
  unfold mapOption at h
  split at h
  · rename_i b bs hfa hrest
    injection h with h2
    exact ⟨b, bs, hfa, hrest, h2.symm⟩
  · cases h

/-- A successful `mapExcept` preserves the length. -/
theorem mapExcept_ok_length (f : α → Except ε β) :
    ∀ (l : List α) (r : List β), mapExcept f l = Except.ok r → r.length = l.length := by
  intro l
  induction l with
  | nil =>
    intro r h
    simp only [mapExcept, Except.ok.injEq] at h
    subst h
    rfl
  | cons a l ih =>
    intro r h
    unfold mapExcept at h
    cases hfa : f a with
    | error e => rw [hfa] at h; cases h
    | ok b =>
      rw [hfa] at h
      cases hrest : mapExcept f l with
      | error e => rw [hrest] at h; cases h
      | ok bs =>
        rw [hrest] at h
        injection h with h2
        subst h2
        simp [ih bs hrest]

/-- `mapExcept` fails as soon as one element fails. -/
theorem mapExcept_error_of_mem (f : α → Except ε β) (c : α) (e : ε) :
    ∀ (l : List α), c ∈ l → f c = Except.error e →
      ∃ e2, mapExcept f l = Except.error e2 := by
  intro l
  induction l with
  | nil => intro hmem; cases hmem
  | cons a l ih =>
    intro hmem hfc
    rcases List.mem_cons.mp hmem with h | h
    · subst h
      exact ⟨e, by unfold mapExcept; rw [hfc]⟩
    · unfold mapExcept
      cases hfa : f a with
      | error e3 => exact ⟨e3, rfl⟩
      | ok b =>
        obtain ⟨e2, h2⟩ := ih h hfc
        rw [h2]
        exact ⟨e2, rfl⟩

/-! ## Claim theorems -/

/-- C6: parsing the SMILES string for toluene yields a molecule whose ring
count, as reported by the ring-information query, is 1. -/
theorem toluene_has_one_ring : (parseSmiles "Cc1ccccc1").map numRings = some 1 := by rfl

/-- C2: every descriptor, ring-information and fingerprint call of the
notebook flow — `NumRings`, `CalcNumRotatableBonds`, `BCUT2D` and
`GetMorganFingerprintAsBitVect` — is applied to a Molecule produced by a
successful SMILES parse; both parses succeed, so the parse-failure branch of
the flow is unreachable and the flow completes with the outputs of all four
calls. -/
theorem notebook_descriptor_calls_on_parsed_molecules :
    ∃ m t, molFromSmilesE "CCCO" = Except.ok m ∧
      molFromSmilesE "Cc1ccccc1" = Except.ok t ∧
      notebookDescriptors = Except.ok
        (numRings t, calcNumRotatableBonds t, bcut2d (addHs m),
          getMorganFingerprintAsBitVect (addHs m) 4 16) :=
  ⟨_, _, rfl, rfl, rfl⟩

/-- C5: hydrogen explicitation keeps the original atoms with unchanged
symbols at unchanged indices and appends only hydrogen atoms; for the
notebook molecule `CCCO` the atom sequence goes from C,C,C,O to C,C,C,O
followed by 8 hydrogens. -/
theorem addHs_preserves_prefix_appends_hydrogens :
    (∀ m : Molecule,
      (addHs m).atoms.take m.atoms.length = m.atoms ∧
      ((addHs m).atoms.drop m.atoms.length).all
        (fun a => decide (a.symbol = ['H'])) = true) ∧
    (parseSmiles "CCCO").map (fun m => m.atoms.map Atom.symbol) =
      some [['C'], ['C'], ['C'], ['O']] ∧
    (parseSmiles "CCCO").map (fun m => (addHs m).atoms.map Atom.symbol) =
      some [['C'], ['C'], ['C'], ['O'],
        ['H'], ['H'], ['H'], ['H'], ['H'], ['H'], ['H'], ['H']] := by
  refine ⟨fun m => ⟨?_, ?_⟩, rfl, rfl⟩
  · show ((m.atoms ++ List.replicate (hCounts m).sum (Atom.mk ['H'] false)).take m.atoms.length)
      = m.atoms
    exact List.take_left m.atoms _
  · show ((m.atoms ++ List.replicate (hCounts m).sum (Atom.mk ['H'] false)).drop m.atoms.length).all
      (fun a => decide (a.symbol = ['H'])) = true
    rw [List.drop_left]
    simp [List.all_eq_true, List.mem_replicate]

/-- C8: descriptor and fingerprint computation is deterministic and
effect-free: in the state-passing form, running the computation leaves the
molecule unchanged, and running it a second time on the molecule left
behind returns the same value. -/
theorem descriptor_computation_pure (m : Molecule) (radius nBits : Nat) :
    (calcNumRotatableBondsRun m).2 = m ∧
    (calcNumRotatableBondsRun ((calcNumRotatableBondsRun m).2)).1 =
      (calcNumRotatableBondsRun m).1 ∧
    (getMorganFingerprintRun m radius nBits).2 = m ∧
    (getMorganFingerprintRun ((getMorganFingerprintRun m radius nBits).2) radius nBits).1 =
      (getMorganFingerprintRun m radius nBits).1 :=
  ⟨rfl, rfl, rfl, rfl⟩

/-- Setting bits over any start vector never changes the length. -/
theorem fpFold_length (n : Nat) :
    ∀ (hs : List Nat) (bv : List Nat),
      (hs.foldl (fun bv h => bv.set (h % n) 1) bv).length = bv.length := by
  intro hs
  induction hs with
  | nil => intro bv; rfl
  | cons h hs ih =>
    intro bv
    simp only [List.foldl_cons]
    rw [ih]
    exact List.length_set bv (h % n) 1

/-- Setting bits over a 0/1 vector keeps every entry 0 or 1. -/
theorem fpFold_bits (n : Nat) :
    ∀ (hs : List Nat) (bv : List Nat),
      bv.all (fun x => x == 0 || x == 1) = true →
      (hs.foldl (fun bv h => bv.set (h % n) 1) bv).all (fun x => x == 0 || x == 1) = true := by
  intro hs
  induction hs with
  | nil => intro bv hbv; exact hbv
  | cons h hs ih =>
    intro bv hbv
    simp only [List.foldl_cons]
    apply ih
    rw [List.all_eq_true] at hbv ⊢
    intro x hx
    rcases List.mem_or_eq_of_mem_set hx with hx2 | hx2
    · exact hbv x hx2
    · simp [hx2]

/-- C4: for every Molecule and every radius and length choice, the Morgan
fingerprint is a vector with exactly `nBits` entries, each entry 0 or 1. -/
theorem getMorganFingerprint_fixed_length_bits (m : Molecule) (radius nBits : Nat) :
    (getMorganFingerprintAsBitVect m radius nBits).length = nBits ∧
    (getMorganFingerprintAsBitVect m radius nBits).all (fun x => x == 0 || x == 1) = true := by
  constructor
  · unfold getMorganFingerprintAsBitVect
    rw [fpFold_length]
    exact List.length_replicate nBits 0
  · unfold getMorganFingerprintAsBitVect
    apply fpFold_bits
    rw [List.all_eq_true]
    intro x hx
    rw [List.eq_of_mem_replicate hx]
    rfl

/-- C1: a record whose SMILES field is malformed makes the
structure-parsing cell terminate with an unhandled error; `runCell15` has
no recovery path and returns no table. -/
theorem malformed_smiles_terminates_cell (t : Table) (col : List Cell) (s : List Char)
    (hcol : getColumn t "smiles_0" = Except.ok col)
    (hmem : Cell.js (Json.str s) ∈ col)
    (hbad : parseSmiles (String.mk s) = none) :
    ∃ e, runCell15 t = Except.error e := by
  have hcell : molFromSmilesCell (Cell.js (Json.str s)) = Except.error "SMILES Parse Error" := by
    simp only [molFromSmilesCell, molFromSmilesE, hbad]
  obtain ⟨e2, h2⟩ := mapExcept_error_of_mem molFromSmilesCell _ _ col hmem hcell
  refine ⟨e2, ?_⟩
  simp only [runCell15, hcol, h2]

/-- Witness for C1: a table whose only record carries the malformed SMILES
string `(` makes the parsing cell terminate with an error. -/
theorem malformed_smiles_terminates_cell_witness :
    ∃ e, runCell15 ⟨["smiles_0"], [[Cell.js (Json.str ['('])]]⟩ = Except.error e :=
  malformed_smiles_terminates_cell ⟨["smiles_0"], [[Cell.js (Json.str ['('])]]⟩
    [Cell.js (Json.str ['('])] ['('] rfl (List.mem_singleton.mpr rfl) rfl

/-- C3: when every data line of the file deserializes, the loader returns
the first min 1000 records, a prefix of the file's records in file order,
one per line. -/
theorem loadData_takes_prefix (content : String) (rs : List Json)
    (h : mapOption json_loadsChars (contentLines content) = some rs) :
    loadData content = some (rs.take 1000) ∧
    rs.take 1000 <+: rs ∧
    (rs.take 1000).length = min 1000 rs.length ∧
    rs.length = (contentLines content).length := by
  refine ⟨?_, List.take_prefix 1000 rs, List.length_take 1000 rs,
    mapOption_length json_loadsChars (contentLines content) rs h⟩
  unfold loadData
  rw [h]
  rfl

/-- Witness for C3: a two-line file loads to both records, and two records
are a (here improper) prefix of themselves. -/
theorem loadData_takes_prefix_witness :
    loadData "\x7b\"u\": 1\x7d\n\x7b\"u\": 2\x7d" =
      some (([Json.obj [(['u'], Json.num ['1'])],
        Json.obj [(['u'], Json.num ['2'])]] : List Json).take 1000) ∧
    ([Json.obj [(['u'], Json.num ['1'])],
      Json.obj [(['u'], Json.num ['2'])]] : List Json).take 1000 <+:
      [Json.obj [(['u'], Json.num ['1'])], Json.obj [(['u'], Json.num ['2'])]] ∧
    (([Json.obj [(['u'], Json.num ['1'])],
      Json.obj [(['u'], Json.num ['2'])]] : List Json).take 1000).length =
      min 1000 ([Json.obj [(['u'], Json.num ['1'])],
        Json.obj [(['u'], Json.num ['2'])]] : List Json).length ∧
    ([Json.obj [(['u'], Json.num ['1'])],
      Json.obj [(['u'], Json.num ['2'])]] : List Json).length =
      (contentLines "\x7b\"u\": 1\x7d\n\x7b\"u\": 2\x7d").length :=
  loadData_takes_prefix "\x7b\"u\": 1\x7d\n\x7b\"u\": 2\x7d"
    [Json.obj [(['u'], Json.num ['1'])], Json.obj [(['u'], Json.num ['2'])]] rfl

/-- C7: projection with a list of present column names returns exactly the
named columns in the requested order with one projected row per input row,
and `head n` returns the first `min n (row count)` rows in original
order, a prefix of the rows. -/
theorem projection_and_head_slice (t : Table) (cs : List String) (n : Nat)
    (h : cs.all (fun c => t.cols.contains c) = true) :
    projectCols t cs = Except.ok
      ⟨cs, t.rows.map (fun r => cs.map (getCell t.cols r))⟩ ∧
    (t.rows.map (fun r => cs.map (getCell t.cols r))).length = t.rows.length ∧
    (headTable t n).cols = t.cols ∧
    (headTable t n).rows = t.rows.take n ∧
    (headTable t n).rows.length = min n t.rows.length ∧
    (headTable t n).rows <+: t.rows := by
  refine ⟨?_, List.length_map t.rows _, rfl, rfl,
    List.length_take n t.rows, List.take_prefix n t.rows⟩
  simp only [projectCols, h, if_true]

/-- Witness for C7: the projection the notebook performs,
`data[['smiles_0', 'inchi_0', 'u']].head(5)`, on a table carrying those
columns. -/
theorem projection_and_head_slice_witness :
    projectCols ⟨["smiles_0", "inchi_0", "u"], []⟩ ["smiles_0", "inchi_0", "u"] =
      Except.ok ⟨["smiles_0", "inchi_0", "u"], []⟩ ∧
    ([] : List (List Cell)).length = 0 ∧
    (headTable ⟨["smiles_0", "inchi_0", "u"], []⟩ 5).cols = ["smiles_0", "inchi_0", "u"] ∧
    (headTable ⟨["smiles_0", "inchi_0", "u"], []⟩ 5).rows = [] ∧
    (headTable ⟨["smiles_0", "inchi_0", "u"], []⟩ 5).rows.length = min 5 0 ∧
    (headTable ⟨["smiles_0", "inchi_0", "u"], []⟩ 5).rows <+: ([] : List (List Cell)) :=
  projection_and_head_slice ⟨["smiles_0", "inchi_0", "u"], []⟩
    ["smiles_0", "inchi_0", "u"] 5 rfl

/-- C9: on a well-formed file the two loading paths of the notebook agree:
manually deserializing the stripped first line yields exactly the Record at
row 0 of the table built by the line-delimited loader. -/
theorem manual_and_loader_first_record_agree (content : String)
    (first : List Char) (ls : List (List Char)) (rs : List Json)
    (hsplit : splitOnNl content.data = first :: ls)
    (hne : wsOnly first = false)
    (hwf : mapOption json_loadsChars (contentLines content) = some rs) :
    ∃ v, json_loadsChars first = some v ∧
      manualFirstJson content = some v ∧
      rs.head? = some v ∧
      ∃ out, loadData content = some out ∧ out.head? = some v := by
  have hcl : contentLines content = first :: ls.filter (fun l => !(wsOnly l)) := by
    unfold contentLines
    rw [hsplit]
    rw [List.filter_cons_of_pos]
    simp [hne]
  rw [hcl] at hwf
  obtain ⟨v, vs, hfv, hrest, hrs⟩ := mapOption_cons_inv _ _ _ _ hwf
  subst hrs
  have hfirst_eq : first = content.data.takeWhile (fun c => c ≠ '\n') := by
    obtain ⟨ls2, h2⟩ := splitOnNl_head content.data
    have h3 := hsplit.symm.trans h2
    injection h3
  refine ⟨v, hfv, ?_, rfl, ?_⟩
  · unfold manualFirstJson manualFirstRecord
    rw [← hfirst_eq, json_loadsChars_strip, hfv]
  · refine ⟨(v :: vs).take 1000, ?_, ?_⟩
    · unfold loadData
      rw [hcl, hwf]
      rfl
    · rw [show (1000 : Nat) = 999 + 1 from rfl, List.take_succ_cons]
      rfl

/-- Witness for C9: a two-line file on which both loading paths produce the
same first record. -/
theorem manual_and_loader_first_record_agree_witness :
    ∃ v, json_loadsChars ['\x7b', '"', 'u', '"', ':', ' ', '1', '\x7d'] = some v ∧
      manualFirstJson "\x7b\"u\": 1\x7d\n\x7b\"u\": 2\x7d" = some v ∧
      ([Json.obj [(['u'], Json.num ['1'])],
        Json.obj [(['u'], Json.num ['2'])]] : List Json).head? = some v ∧
      ∃ out, loadData "\x7b\"u\": 1\x7d\n\x7b\"u\": 2\x7d" = some out ∧
        out.head? = some v :=
  manual_and_loader_first_record_agree "\x7b\"u\": 1\x7d\n\x7b\"u\": 2\x7d"
    ['\x7b', '"', 'u', '"', ':', ' ', '1', '\x7d']
    [['\x7b', '"', 'u', '"', ':', ' ', '2', '\x7d']]
    [Json.obj [(['u'], Json.num ['1'])], Json.obj [(['u'], Json.num ['2'])]]
    rfl rfl rfl

/-- C10: assigning the parsed-molecule column appends exactly the one new
column name `mol` after the existing columns, extends each row by its
parsed cell, and keeps the row count; every pre-existing cell stays in
place. -/
theorem assign_mol_column_frame (t : Table) (col mols : List Cell)
    (hnew : t.cols.contains "mol" = false)
    (hcol : getColumn t "smiles_0" = Except.ok col)
    (hmols : mapExcept molFromSmilesCell col = Except.ok mols) :
    runCell15 t = Except.ok (setColumn t "mol" mols) ∧
    (setColumn t "mol" mols).cols = t.cols ++ ["mol"] ∧
    (setColumn t "mol" mols).rows = t.rows.zipWith (fun r v => r ++ [v]) mols ∧
    (setColumn t "mol" mols).rows.length = t.rows.length := by
  have hlen_col : col.length = t.rows.length := by
    unfold getColumn at hcol
    split at hcol
    · injection hcol with h2
      rw [← h2]
      exact List.length_map t.rows _
    · cases hcol
  have hlen : mols.length = t.rows.length :=
    (mapExcept_ok_length molFromSmilesCell col mols hmols).trans hlen_col
  have hnm : "mol" ∉ t.cols := by simpa using hnew
  have hrows : (setColumn t "mol" mols).rows = t.rows.zipWith (fun r v => r ++ [v]) mols := by
    simp [setColumn, hnm]
  refine ⟨?_, ?_, hrows, ?_⟩
  · simp only [runCell15, hcol, hmols]
  · simp [setColumn, hnm]
  · rw [hrows, List.length_zipWith, hlen]
    exact Nat.min_self _

/-- Witness for C10: a one-record table whose SMILES cell is `CCCO` gains
exactly the `mol` column. -/
theorem assign_mol_column_frame_witness :
    runCell15 ⟨["smiles_0"], [[Cell.js (Json.str ['C', 'C', 'C', 'O'])]]⟩ =
      Except.ok (setColumn ⟨["smiles_0"], [[Cell.js (Json.str ['C', 'C', 'C', 'O'])]]⟩ "mol"
        [Cell.mol ⟨[⟨['C'], false⟩, ⟨['C'], false⟩, ⟨['C'], false⟩, ⟨['O'], false⟩],
          [⟨0, 1, BondOrder.single, false⟩, ⟨1, 2, BondOrder.single, false⟩,
            ⟨2, 3, BondOrder.single, false⟩]⟩]) ∧
    (setColumn ⟨["smiles_0"], [[Cell.js (Json.str ['C', 'C', 'C', 'O'])]]⟩ "mol"
      [Cell.mol ⟨[⟨['C'], false⟩, ⟨['C'], false⟩, ⟨['C'], false⟩, ⟨['O'], false⟩],
        [⟨0, 1, BondOrder.single, false⟩, ⟨1, 2, BondOrder.single, false⟩,
          ⟨2, 3, BondOrder.single, false⟩]⟩]).cols = ["smiles_0"] ++ ["mol"] ∧
    (setColumn ⟨["smiles_0"], [[Cell.js (Json.str ['C', 'C', 'C', 'O'])]]⟩ "mol"
      [Cell.mol ⟨[⟨['C'], false⟩, ⟨['C'], false⟩, ⟨['C'], false⟩, ⟨['O'], false⟩],
        [⟨0, 1, BondOrder.single, false⟩, ⟨1, 2, BondOrder.single, false⟩,
          ⟨2, 3, BondOrder.single, false⟩]⟩]).rows =
      ([[Cell.js (Json.str ['C', 'C', 'C', 'O'])]] : List (List Cell)).zipWith
        (fun r v => r ++ [v])
        [Cell.mol ⟨[⟨['C'], false⟩, ⟨['C'], false⟩, ⟨['C'], false⟩, ⟨['O'], false⟩],
          [⟨0, 1, BondOrder.single, false⟩, ⟨1, 2, BondOrder.single, false⟩,
            ⟨2, 3, BondOrder.single, false⟩]⟩] ∧
    (setColumn ⟨["smiles_0"], [[Cell.js (Json.str ['C', 'C', 'C', 'O'])]]⟩ "mol"
      [Cell.mol ⟨[⟨['C'], false⟩, ⟨['C'], false⟩, ⟨['C'], false⟩, ⟨['O'], false⟩],
        [⟨0, 1, BondOrder.single, false⟩, ⟨1, 2, BondOrder.single, false⟩,
          ⟨2, 3, BondOrder.single, false⟩]⟩]).rows.length = 1 :=
  assign_mol_column_frame ⟨["smiles_0"], [[Cell.js (Json.str ['C', 'C', 'C', 'O'])]]⟩
    [Cell.js (Json.str ['C', 'C', 'C', 'O'])]
    [Cell.mol ⟨[⟨['C'], false⟩, ⟨['C'], false⟩, ⟨['C'], false⟩, ⟨['O'], false⟩],
      [⟨0, 1, BondOrder.single, false⟩, ⟨1, 2, BondOrder.single, false⟩,
        ⟨2, 3, BondOrder.single, false⟩]⟩]
    rfl rfl rfl
